/-
Verification of the tastytrade options-trading toolkit.

Shallow embedding of the Python modules `position_sizer.py`, `loss_monitor.py`,
`options_scanner.py` and `auto_trade_detector.py` into Lean 4, with theorems
settling the specification claims about them.

Conventions:
* Python floats are modelled as exact rationals (`ℚ`).
* Python `int(x)` on a float truncates toward zero; `pyTrunc` models it.
* Python code that can raise (`ZeroDivisionError`) is modelled with `Option`:
  `none` is a propagated exception.
* Dict rows keep only the fields the modelled code reads; `dict.get` defaults
  (`0` via `safe_float`, `100` for `multiplier`) are resolved into the fields.
-/
import Mathlib

/-- Python `int(x)` applied to a real number: truncation toward zero. -/
def pyTrunc (q : ℚ) : Int :=
  if 0 ≤ q then ⌊q⌋ else -⌊-q⌋

/-! ## position_sizer.py

`PositionSizer.__init__` stores `max_risk_dollars = account_size * max_risk_per_trade`.
The methods below take the relevant `self` fields as explicit arguments. -/

/-- `PositionSizer.size_credit_spread` (position_sizer.py, lines 22-45).
`max_risk_dollars` is `self.max_risk_dollars = account_size * max_risk_per_trade`. -/
def size_credit_spread (max_risk_dollars width credit_per_spread : ℚ) : Int :=
  let max_loss_per_spread := (width - credit_per_spread) * 100
  if max_loss_per_spread ≤ 0 then 0
  else
    let contracts := pyTrunc (max_risk_dollars / max_loss_per_spread)
    if contracts = 0 ∧ credit_per_spread ≥ width / 3 then 1 else contracts

/-- Result record of `PositionSizer.calculate_position_details`. -/
structure PosDetails where
  contracts : Int
  total_credit : ℚ
  total_max_loss : ℚ
  risk_pct : ℚ
  meets_criteria : Bool
  deriving Repr, DecidableEq

/-- `PositionSizer.calculate_position_details` (position_sizer.py, lines 47-75),
on the auto-computed path (`contracts=None`).  `account_size = 0` makes the
`total_risk_pct` division raise `ZeroDivisionError`, modelled as `none`. -/
def calculate_position_details (account_size max_risk_per_trade width credit : ℚ) :
    Option PosDetails :=
  let contracts := size_credit_spread (account_size * max_risk_per_trade) width credit
  let max_loss_per_spread := (width - credit) * 100
  let total_max_loss := max_loss_per_spread * contracts
  let total_credit := credit * 100 * contracts
  if account_size = 0 then none
  else
    let total_risk_pct := total_max_loss / account_size * 100
    some { contracts := contracts
           total_credit := total_credit
           total_max_loss := total_max_loss
           risk_pct := total_risk_pct
           meets_criteria := decide (contracts > 0) && decide (total_risk_pct ≤ max_risk_per_trade * 100) }

/-! ## loss_monitor.py -/

/-- The four severity labels of `LossMonitor._assess_severity`. -/
inductive Severity where
  | CRITICAL
  | WARNING
  | WATCH
  | OK
  deriving Repr, DecidableEq, BEq

/-- `LossMonitor._assess_severity` (loss_monitor.py, lines 139-154). -/
def assess_severity (pnl max_loss loss_pct : ℚ) : Severity :=
  if |pnl| > |max_loss| ∨ loss_pct < -100 then .CRITICAL
  else if loss_pct < -50 ∨ |pnl| > |max_loss| * (1/2) then .WARNING
  else if loss_pct < -25 then .WATCH
  else .OK

/-- Lower-casing a string, character by character (Python `str.lower`,
restricted to the ASCII instrument-type strings the monitor sees). -/
def strToLower (s : String) : String := String.mk (s.data.map Char.toLower)

/-- Does `needle` occur as a contiguous substring of `hay`?  Python `in` on strings. -/
def hasSubstrAux (needle : List Char) : List Char → Bool
  | [] => needle.isEmpty
  | c :: cs => needle.isPrefixOf (c :: cs) || hasSubstrAux needle cs

/-- Python `'option' in inst_type.lower()` (loss_monitor.py, line 63). -/
def strContainsOption (s : String) : Bool :=
  hasSubstrAux "option".data (strToLower s).data

/-- One position row as read by `LossMonitor.check_positions`: the fields
`symbol`, `instrument-type`, `quantity`, `average-open-price`, `close-price`
and `multiplier` (numeric fields already passed through `safe_float`, with
`multiplier` defaulting to 100). -/
structure LMPosition where
  symbol : String
  instrument_type : String
  quantity : ℚ
  average_open_price : ℚ
  close_price : ℚ
  multiplier : ℚ
  deriving Repr, DecidableEq

/-- A `warnings` entry built by `check_positions` (loss_monitor.py, lines 95-103). -/
structure WarningRec where
  symbol : String
  quantity : ℚ
  unrealized_pnl : ℚ
  loss_pct : ℚ
  severity : Severity
  current_price : ℚ
  avg_price : ℚ
  deriving Repr, DecidableEq

/-- A recommendation built by `LossMonitor._generate_recommendation`
(loss_monitor.py, lines 156-184).  The emoji prefixes of the `urgency`
strings are dropped. -/
structure ExitRec where
  symbol : String
  quantity : ℚ
  pnl : ℚ
  loss_pct : ℚ
  action : String
  reason : String
  urgency : String
  severity : Severity
  deriving Repr, DecidableEq

/-- A `healthy_positions` entry (loss_monitor.py, lines 111-115). -/
structure HealthyRec where
  symbol : String
  unrealized_pnl : ℚ
  profit_pct : ℚ
  deriving Repr, DecidableEq

/-- `LossMonitor._generate_recommendation` (loss_monitor.py, lines 156-184). -/
def generate_recommendation (symbol : String) (quantity pnl loss_pct : ℚ)
    (severity : Severity) : ExitRec :=
  if severity = .CRITICAL then
    { symbol, quantity, pnl, loss_pct
      action := "EXIT IMMEDIATELY"
      reason := "Loss has exceeded acceptable threshold (>2x max loss)"
      urgency := "URGENT", severity }
  else if severity = .WARNING then
    { symbol, quantity, pnl, loss_pct
      action := "CONSIDER EXITING"
      reason := "Position is significantly underwater (>50% loss)"
      urgency := "HIGH", severity }
  else
    { symbol, quantity, pnl, loss_pct
      action := "MONITOR CLOSELY"
      reason := "Position showing moderate loss"
      urgency := "MEDIUM", severity }

/-- What the `check_positions` loop body does with one position. -/
inductive PosOutcome where
  /-- `continue`: not an option position. -/
  | skipped
  /-- Losing, but severity below WARNING: appended nowhere. -/
  | silent
  /-- Non-negative P&L: appended to `healthy_positions`. -/
  | healthy (h : HealthyRec)
  /-- Losing with severity CRITICAL or WARNING: appended to both
  `warnings` and `recommendations`. -/
  | alert (w : WarningRec) (r : ExitRec)
  deriving Repr, DecidableEq

/-- The stop-loss section of the loop body (loss_monitor.py, lines 91-115). -/
def stopCheck (p : LMPosition) (unrealized_pnl max_loss loss_pct : ℚ) : PosOutcome :=
  if unrealized_pnl < 0 then
    let severity := assess_severity unrealized_pnl max_loss loss_pct
    if severity = .CRITICAL ∨ severity = .WARNING then
      .alert
        { symbol := p.symbol, quantity := p.quantity, unrealized_pnl, loss_pct, severity
          current_price := p.close_price, avg_price := p.average_open_price }
        (generate_recommendation p.symbol p.quantity unrealized_pnl loss_pct severity)
    else .silent
  else .healthy { symbol := p.symbol, unrealized_pnl, profit_pct := loss_pct }

/-- One iteration of the `check_positions` loop (loss_monitor.py, lines 57-115).
`self.rules['max_loss_multiple']` is `2.0`.  In the short branch the
`loss_pct` divisor `entry_credit * abs(quantity) * multiplier` has no zero
guard, so a zero value raises `ZeroDivisionError` (`none`); in the long
branch the division is guarded by `if cost_basis > 0 else 0`. -/
def process_position (p : LMPosition) : Option PosOutcome :=
  if ¬ strContainsOption p.instrument_type then some .skipped
  else
    let avg_price := p.average_open_price
    let current_price := p.close_price
    let multiplier := p.multiplier
    if p.quantity < 0 then
      let entry_credit := avg_price
      let current_debit := current_price
      let unrealized_pnl := (entry_credit - current_debit) * |p.quantity| * multiplier
      let max_loss := entry_credit * |p.quantity| * multiplier * 2
      if entry_credit * |p.quantity| * multiplier = 0 then none
      else
        let loss_pct := unrealized_pnl / (entry_credit * |p.quantity| * multiplier) * 100
        some (stopCheck p unrealized_pnl max_loss loss_pct)
    else
      let cost_basis := avg_price * p.quantity * multiplier
      let current_value := current_price * p.quantity * multiplier
      let unrealized_pnl := current_value - cost_basis
      let max_loss := cost_basis * (1/2)
      let loss_pct := if 0 < cost_basis then unrealized_pnl / cost_basis * 100 else 0
      some (stopCheck p unrealized_pnl max_loss loss_pct)

/-- The dict returned by `check_positions`. -/
structure CheckResult where
  warnings : List WarningRec
  recommendations : List ExitRec
  healthy_positions : List HealthyRec
  deriving Repr, DecidableEq

/-- The `check_positions` loop, folding `process_position` over the positions;
an exception in any iteration aborts the whole call (`none`). -/
def check_positions_go : List LMPosition → CheckResult → Option CheckResult
  | [], acc => some acc
  | p :: ps, acc =>
    match process_position p with
    | none => none
    | some .skipped => check_positions_go ps acc
    | some .silent => check_positions_go ps acc
    | some (.healthy h) =>
      check_positions_go ps { acc with healthy_positions := acc.healthy_positions ++ [h] }
    | some (.alert w r) =>
      check_positions_go ps
        { acc with warnings := acc.warnings ++ [w]
                   recommendations := acc.recommendations ++ [r] }

/-- `LossMonitor.check_positions` (loss_monitor.py, lines 32-137), as a function
of the fetched positions list. -/
def check_positions (ps : List LMPosition) : Option CheckResult :=
  check_positions_go ps ⟨[], [], []⟩

/-- A warning entry is a CRITICAL- or WARNING-severity losing position. -/
def warningOk (w : WarningRec) : Bool :=
  (decide (w.severity = Severity.CRITICAL) || decide (w.severity = Severity.WARNING))
    && decide (w.unrealized_pnl < 0)

/-- A recommendation entry is a CRITICAL- or WARNING-severity losing position. -/
def exitRecOk (r : ExitRec) : Bool :=
  (decide (r.severity = Severity.CRITICAL) || decide (r.severity = Severity.WARNING))
    && decide (r.pnl < 0)

/-! ## options_scanner.py : put credit spread finder -/

/-- The put side of one strike row of the option chain. -/
structure ChainPut where
  delta : ℚ
  bid : ℚ
  ask : ℚ
  deriving Repr, DecidableEq

/-- One strike row of the option chain (`strike-price` and the optional `put`). -/
structure StrikeData where
  strike_price : ℚ
  put : Option ChainPut
  deriving Repr, DecidableEq

/-- One expiration of the option chain, with the fields
`_find_put_credit_spread` reads. -/
structure ScanExpiration where
  expiration_date : String
  underlying_price : ℚ
  strikes : List StrikeData
  deriving Repr, DecidableEq

/-- An entry of the `put_strikes` list (options_scanner.py, lines 260-267). -/
structure PutQuote where
  strike : ℚ
  delta : ℚ
  bid : ℚ
  ask : ℚ
  mid : ℚ
  deriving Repr, DecidableEq

/-- The `long_strike_data` dict (options_scanner.py, lines 288-295). -/
structure LongQuote where
  strike : ℚ
  bid : ℚ
  ask : ℚ
  mid : ℚ
  deriving Repr, DecidableEq

/-- The opportunity dict built by `_find_put_credit_spread`
(options_scanner.py, lines 311-325). -/
structure Opportunity where
  symbol : String
  strategy : String
  iv_rank : ℚ
  expiration : String
  dte : Int
  short_strike : ℚ
  long_strike : ℚ
  width : ℚ
  credit : ℚ
  max_profit : ℚ
  max_loss : ℚ
  pop : ℚ
  return_on_risk : ℚ
  deriving Repr, DecidableEq

/-- The `put_strikes` filter (options_scanner.py, lines 246-267): puts with
delta in [-0.35, -0.25] and positive bid and ask, with their mid price. -/
def put_strikes_of (strikes : List StrikeData) : List PutQuote :=
  strikes.filterMap (fun sd =>
    match sd.put with
    | none => none
    | some p =>
      if -(35/100) ≤ p.delta ∧ p.delta ≤ -(25/100) ∧ 0 < p.bid ∧ 0 < p.ask then
        some { strike := sd.strike_price, delta := p.delta, bid := p.bid, ask := p.ask
               mid := (p.bid + p.ask) / 2 }
      else none)

/-- Stable insertion of a quote into a list sorted by descending strike:
the new element goes before the first element whose strike is ≤ its own. -/
def insertStrikeDesc (x : PutQuote) : List PutQuote → List PutQuote
  | [] => [x]
  | y :: ys => if y.strike ≤ x.strike then x :: y :: ys else y :: insertStrikeDesc x ys

/-- Python's stable `put_strikes.sort(key=lambda x: x['strike'], reverse=True)`
(options_scanner.py, line 273), as a stable insertion sort. -/
def sortStrikeDesc : List PutQuote → List PutQuote
  | [] => []
  | x :: xs => insertStrikeDesc x (sortStrikeDesc xs)

/-- The short leg: head of the descending-sorted `put_strikes`
(options_scanner.py, lines 273-277). -/
def short_put_of (strikes : List StrikeData) : Option PutQuote :=
  (sortStrikeDesc (put_strikes_of strikes)).head?

/-- Spread width: `5 if short_strike < 100 else 10` (options_scanner.py, line 280). -/
def width_for (short_strike : ℚ) : ℚ :=
  if short_strike < 100 then 5 else 10

/-- The long-leg search (options_scanner.py, lines 283-296): the loop breaks at
the first strike within 0.01 of `long_strike`; the data is built only if that
strike has a put. -/
def long_put_of (strikes : List StrikeData) (long_strike : ℚ) : Option LongQuote :=
  match strikes.find? (fun sd => decide (|sd.strike_price - long_strike| < 1/100)) with
  | none => none
  | some sd =>
    match sd.put with
    | none => none
    | some p =>
      some { strike := long_strike, bid := p.bid, ask := p.ask, mid := (p.bid + p.ask) / 2 }

/-- `OptionsScanner._find_put_credit_spread` (options_scanner.py, lines 231-325).
The unused `atm_price`/`target_short_strike` computation (lines 239-243) is
dead code and omitted.  `symbol`, `iv_rank` (from `candidate_info`) and `dte`
are the other arguments of the Python method. -/
def find_put_credit_spread (symbol : String) (iv_rank : ℚ) (dte : Int)
    (exp : ScanExpiration) : Option Opportunity :=
  if exp.strikes = [] then none
  else
    match short_put_of exp.strikes with
    | none => none
    | some s =>
      let width := width_for s.strike
      let long_strike := s.strike - width
      match long_put_of exp.strikes long_strike with
      | none => none
      | some l =>
        let credit := s.mid - l.mid
        let max_profit := credit * 100
        let max_loss := (width - credit) * 100
        let pop := |s.delta| * 100
        if credit < width / 3 then none
        else
          some { symbol, strategy := "Put Credit Spread", iv_rank
                 expiration := exp.expiration_date, dte
                 short_strike := s.strike, long_strike, width, credit
                 max_profit, max_loss, pop
                 return_on_risk := credit / width * 100 }

/-! ## options_scanner.py : expiration selection (`_analyze_chain`, lines 187-211) -/

/-- One expiration as seen by the selection loop: `dte` is the parsed
days-to-expiration, `none` when `expiration-date` is missing or unparsable
(those iterations `continue`). -/
structure ExpEntry where
  expiration_date : String
  dte : Option Int
  deriving Repr, DecidableEq

/-- One iteration of the `_analyze_chain` selection loop.  The accumulator is
`(target_exp, min_dte_diff)`; `none` is the initial
`target_exp = None, min_dte_diff = inf` state, which any in-window
expiration beats. -/
def selStep (target_dte max_dte : Int) (acc : Option (ExpEntry × Int)) (e : ExpEntry) :
    Option (ExpEntry × Int) :=
  match e.dte with
  | none => acc
  | some d =>
    if 30 ≤ d ∧ d ≤ max_dte then
      let dte_diff := |d - target_dte|
      match acc with
      | none => some (e, dte_diff)
      | some (best, best_diff) =>
        if dte_diff < best_diff then some (e, dte_diff) else some (best, best_diff)
    else acc

/-- The expiration-selection loop of `_analyze_chain`
(options_scanner.py, lines 187-211). -/
def selectExpiration (exps : List ExpEntry) (target_dte max_dte : Int) : Option ExpEntry :=
  (exps.foldl (selStep target_dte max_dte) none).map Prod.fst

/-- Is the expiration's DTE inside the closed window [30, max_dte]? -/
def inWindow (max_dte : Int) (e : ExpEntry) : Bool :=
  match e.dte with
  | some d => decide (30 ≤ d ∧ d ≤ max_dte)
  | none => false

/-- The expirations surviving the DTE window. -/
def windowFilter (max_dte : Int) (exps : List ExpEntry) : List ExpEntry :=
  exps.filter (inWindow max_dte)

/-- `|DTE − target_dte|` of an expiration (0 for a dateless entry, which never
survives the window). -/
def dteDiff (target_dte : Int) (e : ExpEntry) : Int :=
  match e.dte with
  | some d => |d - target_dte|
  | none => 0

/-- First element of the list minimizing `f`: a later element wins only by a
strictly smaller value, so ties keep the first-encountered element. -/
def firstMinBy (f : ExpEntry → Int) : List ExpEntry → Option ExpEntry
  | [] => none
  | x :: xs =>
    match firstMinBy f xs with
    | none => some x
    | some y => if f y < f x then some y else some x

/-- Modelled from the spec's words (the `selectExpiration` contract): filter
the expirations to DTE in [30, max_dte], then pick the survivor minimizing
`|DTE − target_dte|`, ties broken by first-encountered order; `none` if no
expiration survives. -/
def selectExpirationSpec (exps : List ExpEntry) (target_dte max_dte : Int) : Option ExpEntry :=
  firstMinBy (dteDiff target_dte) (windowFilter max_dte exps)

/-! ## auto_trade_detector.py -/

/-- One position row as read by `AutoTradeDetector.detect_changes`. -/
structure APos where
  symbol : String
  instrument_type : String
  quantity : ℚ
  deriving Repr, DecidableEq

/-- `AutoTradeDetector._create_position_hash` (auto_trade_detector.py,
lines 61-70): the md5 of `f"{symbol}_{inst_type}"`.  md5 is a deterministic
function of that keying string, so it is modelled by the keying string
itself. -/
def create_position_hash (p : APos) : String :=
  p.symbol ++ "_" ++ p.instrument_type

/-- Python dict insertion: replace in place if the key exists (keeping the
first-insertion key order), else append. -/
def dinsert (k : String) (v : APos) : List (String × APos) → List (String × APos)
  | [] => [(k, v)]
  | (k', v') :: rest => if k = k' then (k, v) :: rest else (k', v') :: dinsert k v rest

/-- The `{hash: position}` lookup dicts of `detect_changes`
(auto_trade_detector.py, lines 156-161), as insertion-ordered association
lists. -/
def buildPosDict (ps : List APos) : List (String × APos) :=
  ps.foldl (fun d p => dinsert (create_position_hash p) p d) []

/-- `key in dict`. -/
def hasKey (d : List (String × APos)) (k : String) : Bool :=
  d.any (fun kv => kv.1 == k)

/-- `dict[key]` as an `Option`. -/
def dlookup (d : List (String × APos)) (k : String) : Option APos :=
  (d.find? (fun kv => kv.1 == k)).map Prod.snd

/-- A `changed_positions` entry (auto_trade_detector.py, lines 182-187). -/
structure ChangeRec where
  symbol : String
  last_qty : ℚ
  current_qty : ℚ
  change : ℚ
  deriving Repr, DecidableEq

/-- The three change lists computed by `detect_changes`. -/
structure DiffResult where
  new_positions : List APos
  closed_positions : List APos
  changed_positions : List ChangeRec
  deriving Repr, DecidableEq

/-- The diff section of `AutoTradeDetector.detect_changes`
(auto_trade_detector.py, lines 155-187), as a function of the current
positions and of the positions stored by the previous snapshot (whose rows
carry the same hash and quantity).  The Python code iterates the unordered
set intersection for `changed_positions`; the model iterates it in
current-dict order, which fixes one of the admissible orders. -/
def detect_changes (current previous : List APos) : DiffResult :=
  let current_dict := buildPosDict current
  let last_dict := buildPosDict previous
  { new_positions := (current_dict.filter (fun kv => !hasKey last_dict kv.1)).map Prod.snd
    closed_positions := (last_dict.filter (fun kv => !hasKey current_dict kv.1)).map Prod.snd
    changed_positions := current_dict.filterMap (fun kv =>
      match dlookup last_dict kv.1 with
      | none => none
      | some prev =>
        if |kv.2.quantity - prev.quantity| > 1/100 then
          some { symbol := kv.2.symbol, last_qty := prev.quantity
                 current_qty := kv.2.quantity, change := kv.2.quantity - prev.quantity }
        else none) }

/-! ## Concrete inputs used by counterexamples and witnesses -/

/-- A chain whose only filtered put has mid 20 at strike 95 and whose long leg
at 90 has bid = ask = 0 (mid 0): the credit (20) exceeds the width (5). -/
def c1x_exp : ScanExpiration :=
  { expiration_date := "2026-02-20", underlying_price := 100
    strikes := [ { strike_price := 95, put := some { delta := -(3/10), bid := 20, ask := 20 } }
               , { strike_price := 90, put := some { delta := -(1/10), bid := 0, ask := 0 } } ] }

/-- A well-behaved chain: short put mid 2 at strike 95, long put mid 0 at 90. -/
def c1w_exp : ScanExpiration :=
  { expiration_date := "2026-02-20", underlying_price := 100
    strikes := [ { strike_price := 95, put := some { delta := -(3/10), bid := 2, ask := 2 } }
               , { strike_price := 90, put := some { delta := -(1/10), bid := 0, ask := 0 } } ] }

/-- A chain producing credit 1 on width 5: rejected since 1 < 5/3. -/
def c5w_exp : ScanExpiration :=
  { expiration_date := "2026-02-20", underlying_price := 100
    strikes := [ { strike_price := 95, put := some { delta := -(3/10), bid := 1, ask := 1 } }
               , { strike_price := 90, put := some { delta := -(1/10), bid := 0, ask := 0 } } ] }

/-- A chain producing the spec's scenario: width 5, credit 1.85. -/
def c7_exp : ScanExpiration :=
  { expiration_date := "2026-02-20", underlying_price := 100
    strikes := [ { strike_price := 95, put := some { delta := -(3/10), bid := 9/5, ask := 19/10 } }
               , { strike_price := 90, put := some { delta := -(1/10), bid := 0, ask := 0 } } ] }

/-- The opportunity the scanner builds from `c7_exp`. -/
def c7_opp : Opportunity :=
  { symbol := "SPY", strategy := "Put Credit Spread", iv_rank := 65
    expiration := "2026-02-20", dte := 57
    short_strike := 95, long_strike := 90, width := 5, credit := 37/20
    max_profit := 185, max_loss := 315, pop := 30, return_on_risk := 37 }

/-- The position details for width 5, credit 1.85, account 46000, risk 5%. -/
def c7_details : PosDetails :=
  { contracts := 7, total_credit := 1295, total_max_loss := 2205
    risk_pct := 441/92, meets_criteria := true }

/-- A short option position with zero average open price (zero entry credit). -/
def c2_pos : LMPosition :=
  { symbol := "SPY 260220P00095000", instrument_type := "Equity Option"
    quantity := -1, average_open_price := 0, close_price := 1/2, multiplier := 100 }

/-- A short option position deep under water: entry credit 2, now 10. -/
def c10_pos : LMPosition :=
  { symbol := "XYZ 260220P00095000", instrument_type := "Equity Option"
    quantity := -1, average_open_price := 2, close_price := 10, multiplier := 100 }

/-- The result of `check_positions [c10_pos]`. -/
def c10_res : CheckResult :=
  { warnings := [ { symbol := "XYZ 260220P00095000", quantity := -1
                    unrealized_pnl := -800, loss_pct := -400, severity := .CRITICAL
                    current_price := 10, avg_price := 2 } ]
    recommendations := [ { symbol := "XYZ 260220P00095000", quantity := -1
                           pnl := -800, loss_pct := -400
                           action := "EXIT IMMEDIATELY"
                           reason := "Loss has exceeded acceptable threshold (>2x max loss)"
                           urgency := "URGENT", severity := .CRITICAL } ]
    healthy_positions := [] }

/-- The opportunity the scanner builds from `c1x_exp`: admitted (credit 20 ≥ 5/3)
with a negative max loss. -/
def c1x_opp : Opportunity :=
  { symbol := "XYZ", strategy := "Put Credit Spread", iv_rank := 60
    expiration := "2026-02-20", dte := 45
    short_strike := 95, long_strike := 90, width := 5, credit := 20
    max_profit := 2000, max_loss := -1500, pop := 30, return_on_risk := 400 }

/-- The opportunity the scanner builds from `c1w_exp`. -/
def c1w_opp : Opportunity :=
  { symbol := "XYZ", strategy := "Put Credit Spread", iv_rank := 60
    expiration := "2026-02-20", dte := 45
    short_strike := 95, long_strike := 90, width := 5, credit := 2
    max_profit := 200, max_loss := 300, pop := 30, return_on_risk := 40 }

/-- The position details for width 5, credit 1.85, account 46000, risk 5%
(same values as `c7_details`; kept separate for the C9 witness). -/
def c9_details : PosDetails :=
  { contracts := 7, total_credit := 1295, total_max_loss := 2205
    risk_pct := 441/92, meets_criteria := true }

/-- Two positions sharing symbol and instrument type but not quantity. -/
def c8_posA : APos :=
  { symbol := "SPY", instrument_type := "Equity Option", quantity := -1 }

/-- Two positions sharing symbol and instrument type but not quantity. -/
def c8_posB : APos :=
  { symbol := "SPY", instrument_type := "Equity Option", quantity := 5 }

/-! ## Helper lemmas -/

theorem pyTrunc_of_nonneg {q : ℚ} (h : 0 ≤ q) : pyTrunc q = ⌊q⌋ := by
  simp [pyTrunc, h]

theorem pyTrunc_nonneg {q : ℚ} (h : 0 ≤ q) : 0 ≤ pyTrunc q := by
  rw [pyTrunc_of_nonneg h]
  exact Int.floor_nonneg.mpr h

theorem lt_one_of_pyTrunc_eq_zero {q : ℚ} (h : pyTrunc q = 0) : q < 1 := by
  by_cases hq : 0 ≤ q
  · rw [pyTrunc_of_nonneg hq] at h
    have h2 := Int.lt_floor_add_one q
    rw [h] at h2
    simpa using h2
  · exact lt_trans (lt_of_not_le hq) one_pos

theorem pyTrunc_eq_floor_of_one_le_floor {q : ℚ} (h : 1 ≤ ⌊q⌋) : pyTrunc q = ⌊q⌋ := by
  have h0 : (0 : ℚ) ≤ q := by
    have h1 : ((1 : ℤ) : ℚ) ≤ q := le_trans (by exact_mod_cast h) (Int.floor_le q)
    push_cast at h1
    linarith
  exact pyTrunc_of_nonneg h0

/-- `calculate_position_details` on a nonzero account, with the record spelt out. -/
theorem calculate_position_details_eq_some (a f w c : ℚ) (ha : a ≠ 0) :
    calculate_position_details a f w c = some
      { contracts := size_credit_spread (a * f) w c
        total_credit := c * 100 * (size_credit_spread (a * f) w c : ℚ)
        total_max_loss := (w - c) * 100 * (size_credit_spread (a * f) w c : ℚ)
        risk_pct := (w - c) * 100 * (size_credit_spread (a * f) w c : ℚ) / a * 100
        meets_criteria := decide (size_credit_spread (a * f) w c > 0)
          && decide ((w - c) * 100 * (size_credit_spread (a * f) w c : ℚ) / a * 100 ≤ f * 100) } := by
  simp [calculate_position_details, ha]

/-! ## C6 : the severity waterfall -/

/-- C6: `_assess_severity` is a total function into {OK, WATCH, WARNING, CRITICAL},
evaluated as a strict waterfall: CRITICAL iff |pnl| > |max_loss| or loss_pct < -100;
otherwise WARNING iff loss_pct < -50 or |pnl| > 0.5·|max_loss|; otherwise WATCH iff
loss_pct < -25; otherwise OK. -/
theorem c6_assess_severity_waterfall (pnl max_loss loss_pct : ℚ) :
    (assess_severity pnl max_loss loss_pct = .CRITICAL ∨
      assess_severity pnl max_loss loss_pct = .WARNING ∨
      assess_severity pnl max_loss loss_pct = .WATCH ∨
      assess_severity pnl max_loss loss_pct = .OK) ∧
    (assess_severity pnl max_loss loss_pct = .CRITICAL ↔
      (|max_loss| < |pnl| ∨ loss_pct < -100)) ∧
    (assess_severity pnl max_loss loss_pct = .WARNING ↔
      (¬(|max_loss| < |pnl| ∨ loss_pct < -100) ∧
        (loss_pct < -50 ∨ |max_loss| * (1/2) < |pnl|))) ∧
    (assess_severity pnl max_loss loss_pct = .WATCH ↔
      (¬(|max_loss| < |pnl| ∨ loss_pct < -100) ∧
        ¬(loss_pct < -50 ∨ |max_loss| * (1/2) < |pnl|) ∧ loss_pct < -25)) ∧
    (assess_severity pnl max_loss loss_pct = .OK ↔
      (¬(|max_loss| < |pnl| ∨ loss_pct < -100) ∧
        ¬(loss_pct < -50 ∨ |max_loss| * (1/2) < |pnl|) ∧ ¬loss_pct < -25)) := by
  unfold assess_severity
  split_ifs with h1 h2 h3 <;> simp_all

/-! ## C3 : bounds of size_credit_spread -/

/-- C3 counterexample: with a negative risk budget (account_size * max_risk < 0)
the function returns a negative contract count: at budget -630, width 5,
credit 1.85 it returns -2, refuting "never returns a negative contract count"
(and, since -630 < 315 = per-spread max loss and 1.85 ≥ 5/3, also refuting
"returns exactly 1 when the risk budget is smaller than the per-spread max
loss but credit ≥ width/3"). -/
theorem c3_counterexample :
    size_credit_spread (-630) 5 (37/20) = -2 ∧ size_credit_spread (-630) 5 (37/20) < 0 := by
  constructor <;> norm_num [size_credit_spread, pyTrunc, Int.floor_eq_iff]

/-- C3 (amended): for every width and credit, and every NONNEGATIVE risk budget,
`size_credit_spread` never returns a negative contract count; it returns exactly 0
whenever width - credit ≤ 0 (for any budget); and it returns exactly 1 when the
nonnegative risk budget is smaller than the per-spread max loss
(width - credit)·100 but credit ≥ width/3. -/
theorem c3_size_credit_spread_bounds (b w c : ℚ) :
    (w - c ≤ 0 → size_credit_spread b w c = 0) ∧
    (0 ≤ b → 0 ≤ size_credit_spread b w c) ∧
    (0 ≤ b → b < (w - c) * 100 → w / 3 ≤ c → size_credit_spread b w c = 1) := by
  refine ⟨?_, ?_, ?_⟩
  · intro h
    have hm : (w - c) * 100 ≤ 0 := by nlinarith
    simp [size_credit_spread, hm]
  · intro hb
    by_cases h1 : (w - c) * 100 ≤ 0
    · simp [size_credit_spread, h1]
    · have hpos : (0:ℚ) < (w - c) * 100 := lt_of_not_le h1
      have htr : 0 ≤ pyTrunc (b / ((w - c) * 100)) :=
        pyTrunc_nonneg (div_nonneg hb hpos.le)
      simp only [size_credit_spread, if_neg h1]
      split_ifs with h2
      · norm_num
      · exact htr
  · intro hb hlt hc3
    have hpos : (0:ℚ) < (w - c) * 100 := lt_of_le_of_lt hb hlt
    have htr : pyTrunc (b / ((w - c) * 100)) = 0 := by
      rw [pyTrunc_of_nonneg (div_nonneg hb hpos.le)]
      rw [Int.floor_eq_zero_iff]
      exact Set.mem_Ico.mpr ⟨div_nonneg hb hpos.le, (div_lt_one hpos).mpr hlt⟩
    simp [size_credit_spread, hpos.not_le, htr, hc3]

/-- C3 witness: the three parts at concrete inputs: budget 2300 with width 5 =
credit 5 gives 0; budget 2300, width 5, credit 1.85 gives a nonnegative count;
budget 100 (< 315) with width 5, credit 1.85 gives exactly 1. -/
theorem c3_size_credit_spread_bounds_witness :
    size_credit_spread 2300 5 5 = 0 ∧ 0 ≤ size_credit_spread 2300 5 (37/20) ∧
      size_credit_spread 100 5 (37/20) = 1 :=
  ⟨(c3_size_credit_spread_bounds 2300 5 5).1 (by norm_num),
   (c3_size_credit_spread_bounds 2300 5 (37/20)).2.1 (by norm_num),
   (c3_size_credit_spread_bounds 100 5 (37/20)).2.2 (by norm_num) (by norm_num) (by norm_num)⟩

/-! ## C7 : the concrete width-5 / credit-1.85 scenario -/

/-- C7: for width 5 and credit 1.85 the scanner opportunity has
max_profit 185, max_loss 315 and return_on_risk 37%; with account size 46000
and max risk fraction 0.05 (budget 2300) the sizer computes
contracts = floor(2300/315) = 7, total_max_loss 2205, risk_pct = 441/92 ≈ 4.8%
(within 0.01 of 4.8) and meets_criteria = true. -/
theorem c7_concrete_scenario :
    find_put_credit_spread "SPY" 65 57 c7_exp = some c7_opp ∧
    c7_opp.width = 5 ∧ c7_opp.credit = 37/20 ∧
    c7_opp.max_profit = 185 ∧ c7_opp.max_loss = 315 ∧ c7_opp.return_on_risk = 37 ∧
    (46000 : ℚ) * (1/20) = 2300 ∧
    (5 - (37:ℚ)/20) * 100 = 315 ∧
    pyTrunc ((2300 : ℚ) / 315) = 7 ∧
    calculate_position_details 46000 (1/20) c7_opp.width c7_opp.credit = some c7_details ∧
    c7_details.contracts = 7 ∧ c7_details.total_max_loss = 2205 ∧
    c7_details.risk_pct = 441/92 ∧ |c7_details.risk_pct - 24/5| < 1/100 ∧
    c7_details.meets_criteria = true := by
  refine ⟨?_, ?_, ?_, ?_, ?_, ?_, ?_, ?_, ?_, ?_, ?_, ?_, ?_, ?_, ?_⟩
  · norm_num [find_put_credit_spread, c7_exp, c7_opp, short_put_of, put_strikes_of,
      sortStrikeDesc, insertStrikeDesc, width_for, long_put_of, List.filterMap, List.find?,
      List.cons_ne_nil, abs_neg, abs_of_nonneg]
  all_goals norm_num [c7_opp, c7_details, pyTrunc, Int.floor_eq_iff,
    calculate_position_details, size_credit_spread, abs_of_nonneg]

/-! ## C9 : meets_criteria on the auto-sized path -/

/-- C9: for width > credit and positive account size, the auto-sized
`calculate_position_details` sets meets_criteria exactly when
floor(budget / maxLossPerSpread) ≥ 1; and when the truncated division gave 0
contracts (so a contract count of 1 can only come from the floor override),
meets_criteria is false. -/
theorem c9_auto_sizing_meets_criteria (a f w c : ℚ) (d : PosDetails)
    (ha : 0 < a) (hwc : c < w)
    (hd : calculate_position_details a f w c = some d) :
    (d.meets_criteria = true ↔ 1 ≤ ⌊a * f / ((w - c) * 100)⌋) ∧
    (pyTrunc (a * f / ((w - c) * 100)) = 0 → d.contracts = 1 →
      d.meets_criteria = false) := by
  have hM : (0:ℚ) < (w - c) * 100 := by nlinarith
  rw [calculate_position_details_eq_some a f w c (ne_of_gt ha), Option.some_inj] at hd
  have hc : d.contracts = size_credit_spread (a * f) w c := by rw [← hd]
  have hm : d.meets_criteria = (decide (size_credit_spread (a * f) w c > 0)
      && decide ((w - c) * 100 * (size_credit_spread (a * f) w c : ℚ) / a * 100 ≤ f * 100)) := by
    rw [← hd]
  set n : Int := size_credit_spread (a * f) w c with hn
  set r : ℚ := a * f / ((w - c) * 100) with hr
  have hn2 : n = if pyTrunc r = 0 ∧ w / 3 ≤ c then 1 else pyTrunc r := by
    rw [hn]
    simp only [size_credit_spread, if_neg (not_le.mpr hM)]
  have hrisk : ((w - c) * 100 * (n:ℚ) / a * 100 ≤ f * 100) ↔ ((n:ℚ) ≤ r) := by
    rw [hr, mul_le_mul_right (show (0:ℚ) < 100 by norm_num), div_le_iff₀ ha, le_div_iff₀ hM]
    constructor <;> intro h <;> nlinarith
  have hmeets : (decide (n > 0)
      && decide ((w - c) * 100 * (n:ℚ) / a * 100 ≤ f * 100)) = true ↔ (0 < n ∧ n ≤ ⌊r⌋) := by
    simp only [Bool.and_eq_true, decide_eq_true_eq, hrisk, Int.le_floor, gt_iff_lt]
  constructor
  · rw [hm, hmeets]
    constructor
    · rintro ⟨h1, h2⟩
      omega
    · intro h1
      have hpt : pyTrunc r = ⌊r⌋ := pyTrunc_eq_floor_of_one_le_floor h1
      have hne : ¬(pyTrunc r = 0 ∧ w / 3 ≤ c) := by
        rw [hpt]
        rintro ⟨h0, -⟩
        omega
      have hfl : n = ⌊r⌋ := by rw [hn2, if_neg hne, hpt]
      exact ⟨by omega, by rw [hfl]⟩
  · intro ht hc1
    rw [hc] at hc1
    have hflt : ⌊r⌋ < 1 := by
      rw [Int.floor_lt]
      exact_mod_cast lt_one_of_pyTrunc_eq_zero ht
    rw [hm]
    rcases Bool.eq_false_or_eq_true (decide (n > 0)
        && decide ((w - c) * 100 * (n:ℚ) / a * 100 ≤ f * 100)) with hb | hb
    · obtain ⟨-, h2⟩ := hmeets.mp hb
      omega
    · exact hb

/-- C9 witness: at account 46000, fraction 1/20, width 5, credit 1.85 the
floor is 7 ≥ 1, and the theorem yields meets_criteria = true. -/
theorem c9_auto_sizing_meets_criteria_witness :
    c9_details.meets_criteria = true :=
  (c9_auto_sizing_meets_criteria 46000 (1/20) 5 (37/20) c9_details (by norm_num) (by norm_num)
      (by norm_num [calculate_position_details, size_credit_spread, pyTrunc, c9_details,
        Int.floor_eq_iff])).1.mpr
    (by rw [Int.le_floor]; norm_num)

/-! ## C1 : invariants of a returned put-credit-spread opportunity -/

/-- C1 counterexample: a chain whose short put mid (20) far exceeds the width (5)
passes the credit ≥ width/3 admission and is returned with
max_loss = (5 - 20)·100 = -1500 < 0, refuting the unconditional max_loss ≥ 0. -/
theorem c1_counterexample :
    find_put_credit_spread "XYZ" 60 45 c1x_exp = some c1x_opp ∧ c1x_opp.max_loss < 0 := by
  constructor
  · norm_num [find_put_credit_spread, c1x_exp, c1x_opp, short_put_of, put_strikes_of,
      sortStrikeDesc, insertStrikeDesc, width_for, long_put_of, List.filterMap, List.find?,
      List.cons_ne_nil, abs_neg, abs_of_nonneg]
  · norm_num [c1x_opp]

/-- C1 (amended): every opportunity returned by `_find_put_credit_spread`
satisfies width > 0, credit ≥ width/3, and max_loss = (width − credit)·100;
max_loss ≥ 0 holds whenever credit ≤ width (the code never checks
credit ≤ width, so max_loss can be negative when the computed credit exceeds
the width). -/
theorem c1_put_spread_invariant (symbol : String) (iv_rank : ℚ) (dte : Int)
    (exp : ScanExpiration) (o : Opportunity)
    (h : find_put_credit_spread symbol iv_rank dte exp = some o) :
    0 < o.width ∧ o.width / 3 ≤ o.credit ∧ o.max_loss = (o.width - o.credit) * 100 ∧
      (o.credit ≤ o.width → 0 ≤ o.max_loss) := by
  have hwpos : ∀ x : ℚ, 0 < width_for x := by
    intro x
    unfold width_for
    split <;> norm_num
  simp only [find_put_credit_spread] at h
  split at h
  · exact absurd h (by simp)
  · split at h
    · exact absurd h (by simp)
    · split at h
      · exact absurd h (by simp)
      · split at h
        · exact absurd h (by simp)
        · rename_i s hs l hl hcr
          rw [Option.some_inj] at h
          subst h
          refine ⟨hwpos _, not_lt.mp hcr, rfl, ?_⟩
          intro hcw
          dsimp only at hcw ⊢
          nlinarith [hcw]

/-- C1 witness: the invariant instantiated on the well-behaved chain `c1w_exp`,
whose returned opportunity has credit 2 ≤ width 5, hence max_loss = 300 ≥ 0. -/
theorem c1_put_spread_invariant_witness :
    0 < c1w_opp.width ∧ c1w_opp.width / 3 ≤ c1w_opp.credit ∧
      c1w_opp.max_loss = (c1w_opp.width - c1w_opp.credit) * 100 ∧ 0 ≤ c1w_opp.max_loss := by
  have h := c1_put_spread_invariant "XYZ" 60 45 c1w_exp c1w_opp
    (by norm_num [find_put_credit_spread, c1w_exp, c1w_opp, short_put_of, put_strikes_of,
      sortStrikeDesc, insertStrikeDesc, width_for, long_put_of, List.filterMap, List.find?,
      List.cons_ne_nil, abs_neg, abs_of_nonneg])
  exact ⟨h.1, h.2.1, h.2.2.1, h.2.2.2 (by norm_num [c1w_opp])⟩

/-! ## C5 : the credit < width/3 admission threshold -/

/-- C5: whenever the short and long legs are found but the computed credit
(shortMid − longMid) is strictly below width/3, `_find_put_credit_spread`
returns none: a hard rejection. -/
theorem c5_min_credit_rejection (symbol : String) (iv_rank : ℚ) (dte : Int)
    (exp : ScanExpiration) (s : PutQuote) (l : LongQuote)
    (hs : short_put_of exp.strikes = some s)
    (hl : long_put_of exp.strikes (s.strike - width_for s.strike) = some l)
    (hcr : s.mid - l.mid < width_for s.strike / 3) :
    find_put_credit_spread symbol iv_rank dte exp = none := by
  simp only [find_put_credit_spread, hs, hl, if_pos hcr]
  split <;> rfl

/-- C5 witness: the scenario credit = 1.0, width = 5 (1 < 5/3) on the concrete
chain `c5w_exp` is rejected. -/
theorem c5_min_credit_rejection_witness :
    find_put_credit_spread "XYZ" 60 45 c5w_exp = none :=
  c5_min_credit_rejection "XYZ" 60 45 c5w_exp
    { strike := 95, delta := -(3/10), bid := 1, ask := 1, mid := 1 }
    { strike := 90, bid := 0, ask := 0, mid := 0 }
    (by norm_num [c5w_exp, short_put_of, put_strikes_of, sortStrikeDesc, insertStrikeDesc,
      List.filterMap])
    (by norm_num [c5w_exp, long_put_of, width_for, List.find?])
    (by norm_num [width_for])

/-! ## C2 : the unguarded loss_pct division for short positions -/

/-- C2 (code bug): for a short option position whose average open price (entry
credit) is 0, the `loss_pct` computation of `check_positions` divides by
`entry_credit * abs(quantity) * multiplier = 0` and raises `ZeroDivisionError`
(modelled as `none`), instead of short-circuiting to a default as the spec
requires (and as the long branch's `if cost_basis > 0 else 0` guard does). -/
theorem c2_short_zero_credit_division_fault :
    c2_pos.quantity < 0 ∧ c2_pos.average_open_price = 0 ∧
    process_position c2_pos = none ∧ check_positions [c2_pos] = none := by
  have h1 : strContainsOption "Equity Option" = true := by decide
  refine ⟨by norm_num [c2_pos], by norm_num [c2_pos], ?_, ?_⟩
  · norm_num [process_position, c2_pos, h1]
  · norm_num [check_positions, check_positions_go, process_position, c2_pos, h1]

/-! ## C10 : only CRITICAL/WARNING losses reach the warning output -/

theorem generate_recommendation_severity (symbol : String) (q pnl lp : ℚ) (sev : Severity) :
    (generate_recommendation symbol q pnl lp sev).severity = sev := by
  unfold generate_recommendation
  split_ifs <;> rfl

theorem generate_recommendation_pnl (symbol : String) (q pnl lp : ℚ) (sev : Severity) :
    (generate_recommendation symbol q pnl lp sev).pnl = pnl := by
  unfold generate_recommendation
  split_ifs <;> rfl

/-- `stopCheck` emits an alert only for a losing position whose severity is
CRITICAL or WARNING. -/
theorem stopCheck_alert {p : LMPosition} {pnl ml lp : ℚ} {w : WarningRec} {r : ExitRec}
    (h : stopCheck p pnl ml lp = .alert w r) :
    (w.severity = .CRITICAL ∨ w.severity = .WARNING) ∧ w.unrealized_pnl = pnl ∧ pnl < 0 ∧
    (r.severity = .CRITICAL ∨ r.severity = .WARNING) ∧ r.pnl = pnl := by
  simp only [stopCheck] at h
  split at h
  · split at h
    · rename_i hpnl hsev
      injection h with h1 h2
      subst h1
      subst h2
      exact ⟨hsev, rfl, hpnl, by
        rw [generate_recommendation_severity]
        exact hsev, by rw [generate_recommendation_pnl]⟩
    · exact absurd h (by simp)
  · exact absurd h (by simp)

/-- `process_position` emits an alert only for a losing position whose severity
is CRITICAL or WARNING. -/
theorem process_position_alert {p : LMPosition} {w : WarningRec} {r : ExitRec}
    (h : process_position p = some (.alert w r)) :
    (w.severity = .CRITICAL ∨ w.severity = .WARNING) ∧ w.unrealized_pnl < 0 ∧
    (r.severity = .CRITICAL ∨ r.severity = .WARNING) ∧ r.pnl < 0 := by
  simp only [process_position] at h
  split at h
  · exact absurd h (by simp)
  · split at h
    · split at h
      · exact absurd h (by simp)
      · rw [Option.some_inj] at h
        obtain ⟨h1, h2, h3, h4, h5⟩ := stopCheck_alert h
        exact ⟨h1, h2 ▸ h3, h4, h5 ▸ h3⟩
    · rw [Option.some_inj] at h
      obtain ⟨h1, h2, h3, h4, h5⟩ := stopCheck_alert h
      exact ⟨h1, h2 ▸ h3, h4, h5 ▸ h3⟩

/-- Fold invariant: `check_positions_go` preserves "every warning entry and
every recommendation entry is a CRITICAL/WARNING losing position". -/
theorem check_positions_go_all {ps : List LMPosition} {acc res : CheckResult}
    (hw : acc.warnings.all warningOk = true)
    (hr : acc.recommendations.all exitRecOk = true)
    (h : check_positions_go ps acc = some res) :
    res.warnings.all warningOk = true ∧ res.recommendations.all exitRecOk = true := by
  induction ps generalizing acc with
  | nil =>
    rw [check_positions_go, Option.some_inj] at h
    subst h
    exact ⟨hw, hr⟩
  | cons p ps ih =>
    rw [check_positions_go] at h
    cases hp : process_position p with
    | none => rw [hp] at h; exact absurd h (by simp)
    | some o =>
      rw [hp] at h
      cases o with
      | skipped => exact ih hw hr h
      | silent => exact ih hw hr h
      | healthy hh =>
        exact @ih { acc with healthy_positions := acc.healthy_positions ++ [hh] } hw hr h
      | alert w r =>
        obtain ⟨h1, h2, h3, h4⟩ := process_position_alert hp
        have hwok : warningOk w = true := by
          rcases h1 with h1 | h1 <;> simp [warningOk, h1, h2]
        have hrok : exitRecOk r = true := by
          rcases h3 with h3 | h3 <;> simp [exitRecOk, h3, h4]
        exact @ih { acc with warnings := acc.warnings ++ [w]
                             recommendations := acc.recommendations ++ [r] }
          (by simp [List.all_append, hw, hwok])
          (by simp [List.all_append, hr, hrok]) h

/-- C10: when `check_positions` returns, every entry of `warnings` and of
`recommendations` is a losing position assessed CRITICAL or WARNING; a
position with severity WATCH or OK, or with non-negative P&L, never produces
an alert, so it reaches neither list. -/
theorem c10_warnings_only_critical_or_warning (ps : List LMPosition) (res : CheckResult)
    (h : check_positions ps = some res) :
    res.warnings.all warningOk = true ∧ res.recommendations.all exitRecOk = true ∧
    ∀ p w r, process_position p = some (.alert w r) →
      (w.severity = .CRITICAL ∨ w.severity = .WARNING) ∧ w.unrealized_pnl < 0 := by
  obtain ⟨h1, h2⟩ := check_positions_go_all (by rfl) (by rfl) h
  exact ⟨h1, h2, fun p w r hp =>
    ⟨(process_position_alert hp).1, (process_position_alert hp).2.1⟩⟩

/-- C10 witness: the theorem applied to the concrete run on `[c10_pos]`
(a CRITICAL short loser), whose result is `c10_res`. -/
theorem c10_warnings_only_critical_or_warning_witness :
    c10_res.warnings.all warningOk = true ∧ c10_res.recommendations.all exitRecOk = true := by
  have h := c10_warnings_only_critical_or_warning [c10_pos] c10_res (by
    have h1 : strContainsOption "Equity Option" = true := by decide
    norm_num [check_positions, check_positions_go, process_position, c10_pos, c10_res, stopCheck,
      assess_severity, generate_recommendation, h1, abs_neg, abs_of_nonneg])
  exact ⟨h.1, h.2.1⟩

/-! ## C4 : expiration selection -/

theorem firstMinBy_eq_none (f : ExpEntry → Int) (l : List ExpEntry) :
    firstMinBy f l = none ↔ l = [] := by
  cases l with
  | nil => simp [firstMinBy]
  | cons x xs =>
    simp only [firstMinBy]
    constructor
    · intro h
      split at h
      · exact absurd h (by simp)
      · split at h <;> exact absurd h (by simp)
    · intro h
      exact absurd h (by simp)

/-- Folding the selection step from a current best `(b, bd)` keeps the best
unless the rest of the list contains an in-window entry with a strictly
smaller DTE difference. -/
theorem selStep_foldl (t m : Int) (l : List ExpEntry) :
    ∀ (b : ExpEntry) (bd : Int),
    l.foldl (selStep t m) (some (b, bd)) =
      match firstMinBy (dteDiff t) (windowFilter m l) with
      | none => some (b, bd)
      | some y => if dteDiff t y < bd then some (y, dteDiff t y) else some (b, bd) := by
  induction l with
  | nil =>
    intro b bd
    simp [windowFilter, firstMinBy]
  | cons x l ih =>
    intro b bd
    rw [List.foldl_cons]
    rcases hx : x.dte with _ | d
    · have hstep : selStep t m (some (b, bd)) x = some (b, bd) := by simp [selStep, hx]
      have hwin : inWindow m x = false := by simp [inWindow, hx]
      have hwf : windowFilter m (x :: l) = windowFilter m l := by
        simp [windowFilter, List.filter_cons, hwin]
      rw [hstep, hwf, ih]
    · by_cases hw : 30 ≤ d ∧ d ≤ m
      · have hwin : inWindow m x = true := by simp [inWindow, hx, hw.1, hw.2]
        have hdx : dteDiff t x = |d - t| := by simp [dteDiff, hx]
        have hwf : windowFilter m (x :: l) = x :: windowFilter m l := by
          simp [windowFilter, List.filter_cons, hwin]
        rw [hwf]
        by_cases hlt : |d - t| < bd
        · have hstep : selStep t m (some (b, bd)) x = some (x, |d - t|) := by
            simp [selStep, hx, hw, hlt]
          rw [hstep, ih x (|d - t|)]
          rcases hfm : firstMinBy (dteDiff t) (windowFilter m l) with _ | y
          · simp only [firstMinBy, hfm, hdx]
            rw [if_pos hlt]
          · simp only [firstMinBy, hfm, hdx]
            by_cases hy : dteDiff t y < |d - t|
            · have hyb : dteDiff t y < bd := lt_trans hy hlt
              simp [hy, hyb]
            · simp [hy, hdx, hlt]
        · have hstep : selStep t m (some (b, bd)) x = some (b, bd) := by
            simp [selStep, hx, hw, hlt]
          rw [hstep, ih b bd]
          rcases hfm : firstMinBy (dteDiff t) (windowFilter m l) with _ | y
          · simp only [firstMinBy, hfm, hdx]
            rw [if_neg hlt]
          · simp only [firstMinBy, hfm, hdx]
            by_cases hy : dteDiff t y < |d - t|
            · simp [hy]
            · have hgb : ¬ dteDiff t y < bd := by omega
              simp [hy, hdx, hlt, hgb]
      · have hstep : selStep t m (some (b, bd)) x = some (b, bd) := by
          simp [selStep, hx, hw]
        have hwin : inWindow m x = false := by
          simp only [inWindow, hx, decide_eq_false_iff_not]
          exact hw
        have hwf : windowFilter m (x :: l) = windowFilter m l := by
          simp [windowFilter, List.filter_cons, hwin]
        rw [hstep, hwf, ih]

/-- Folding the selection step from the initial `(None, inf)` state computes
the first in-window minimizer of the DTE difference, paired with its
difference. -/
theorem selectExpiration_foldl_none (t m : Int) (l : List ExpEntry) :
    l.foldl (selStep t m) none =
      match firstMinBy (dteDiff t) (windowFilter m l) with
      | none => none
      | some y => some (y, dteDiff t y) := by
  induction l with
  | nil => simp [windowFilter, firstMinBy]
  | cons x l ih =>
    rw [List.foldl_cons]
    rcases hx : x.dte with _ | d
    · have hstep : selStep t m none x = none := by simp [selStep, hx]
      have hwin : inWindow m x = false := by simp [inWindow, hx]
      have hwf : windowFilter m (x :: l) = windowFilter m l := by
        simp [windowFilter, List.filter_cons, hwin]
      rw [hstep, hwf, ih]
    · by_cases hw : 30 ≤ d ∧ d ≤ m
      · have hwin : inWindow m x = true := by simp [inWindow, hx, hw.1, hw.2]
        have hdx : dteDiff t x = |d - t| := by simp [dteDiff, hx]
        have hwf : windowFilter m (x :: l) = x :: windowFilter m l := by
          simp [windowFilter, List.filter_cons, hwin]
        have hstep : selStep t m none x = some (x, |d - t|) := by
          simp [selStep, hx, hw]
        rw [hstep, hwf, selStep_foldl t m l x (|d - t|)]
        rcases hfm : firstMinBy (dteDiff t) (windowFilter m l) with _ | y
        · simp [firstMinBy, hfm, hdx]
        · simp only [firstMinBy, hfm, hdx]
          by_cases hy : dteDiff t y < |d - t| <;> simp [hy, hdx]
      · have hstep : selStep t m none x = none := by simp [selStep, hx, hw]
        have hwin : inWindow m x = false := by
          simp only [inWindow, hx, decide_eq_false_iff_not]
          exact hw
        have hwf : windowFilter m (x :: l) = windowFilter m l := by
          simp [windowFilter, List.filter_cons, hwin]
        rw [hstep, hwf, ih]

/-- C4: the expiration-selection loop of `_analyze_chain` equals the spec
function "filter to DTE ∈ [30, max_dte], then take the first survivor
minimizing |DTE − target_dte| (ties keep the first-encountered)"; and it
returns none exactly when no expiration survives the window. -/
theorem c4_selectExpiration_correct (exps : List ExpEntry) (target_dte max_dte : Int) :
    selectExpiration exps target_dte max_dte = selectExpirationSpec exps target_dte max_dte ∧
    (selectExpiration exps target_dte max_dte = none ↔ windowFilter max_dte exps = []) := by
  have h := selectExpiration_foldl_none target_dte max_dte exps
  constructor
  · rw [selectExpiration, selectExpirationSpec, h]
    rcases hfm : firstMinBy (dteDiff target_dte) (windowFilter max_dte exps) with _ | y <;>
      simp [hfm]
  · rw [selectExpiration, h,
      ← firstMinBy_eq_none (dteDiff target_dte) (windowFilter max_dte exps)]
    rcases hfm : firstMinBy (dteDiff target_dte) (windowFilter max_dte exps) with _ | y <;>
      simp [hfm]


/-! ## C8 : position-change detection -/

theorem hasKey_iff_exists (d : List (String × APos)) (k : String) :
    hasKey d k = true ↔ ∃ kv ∈ d, kv.1 = k := by
  simp [hasKey, List.any_eq_true, beq_iff_eq]

theorem hasKey_of_mem {d : List (String × APos)} {kv : String × APos} (h : kv ∈ d) :
    hasKey d kv.1 = true :=
  (hasKey_iff_exists d kv.1).mpr ⟨kv, h, rfl⟩

theorem mem_dinsert : ∀ (d : List (String × APos)) (kv : String × APos) (k : String) (v : APos),
    kv ∈ dinsert k v d → kv = (k, v) ∨ kv ∈ d := by
  intro d
  induction d with
  | nil =>
    intro kv k v h
    simp only [dinsert, List.mem_singleton] at h
    exact Or.inl h
  | cons hd tl ih =>
    obtain ⟨a, b⟩ := hd
    intro kv k v h
    simp only [dinsert] at h
    split at h
    · rcases List.mem_cons.mp h with h1 | h1
      · exact Or.inl h1
      · exact Or.inr (List.mem_cons_of_mem _ h1)
    · rcases List.mem_cons.mp h with h1 | h1
      · exact Or.inr (h1 ▸ List.mem_cons_self _ _)
      · rcases ih kv k v h1 with h2 | h2
        · exact Or.inl h2
        · exact Or.inr (List.mem_cons_of_mem _ h2)

theorem dinsert_keys (k : String) (v : APos) :
    ∀ d : List (String × APos), (d.map Prod.fst).Nodup →
      ((dinsert k v d).map Prod.fst).Nodup ∧
      (∀ k', k' ∈ (dinsert k v d).map Prod.fst ↔ (k' = k ∨ k' ∈ d.map Prod.fst)) := by
  intro d
  induction d with
  | nil =>
    intro h
    simp [dinsert]
  | cons hd tl ih =>
    obtain ⟨a, b⟩ := hd
    intro h
    simp only [List.map_cons, List.nodup_cons] at h
    by_cases hka : k = a
    · subst hka
      have hD : dinsert k v ((k, b) :: tl) = (k, v) :: tl := by simp [dinsert]
      rw [hD]
      constructor
      · simp only [List.map_cons, List.nodup_cons]
        exact ⟨h.1, h.2⟩
      · intro k'
        simp only [List.map_cons, List.mem_cons]
        tauto
    · have hD : dinsert k v ((a, b) :: tl) = (a, b) :: dinsert k v tl := by
        simp [dinsert, hka]
      rw [hD]
      obtain ⟨ih1, ih2⟩ := ih h.2
      constructor
      · simp only [List.map_cons, List.nodup_cons]
        refine ⟨?_, ih1⟩
        intro hmem
        rcases (ih2 a).mp hmem with h1 | h1
        · exact hka h1.symm
        · exact h.1 h1
      · intro k'
        simp only [List.map_cons, List.mem_cons, ih2]
        tauto

theorem buildDict_keys_nodup (ps : List APos) : ((buildPosDict ps).map Prod.fst).Nodup := by
  suffices h : ∀ (qs : List APos) (d : List (String × APos)), (d.map Prod.fst).Nodup →
      ((qs.foldl (fun d p => dinsert (create_position_hash p) p d) d).map Prod.fst).Nodup by
    exact h ps [] (by simp)
  intro qs
  induction qs with
  | nil =>
    intro d h
    simpa using h
  | cons p qs ih =>
    intro d h
    exact ih _ (dinsert_keys _ _ d h).1

theorem buildDict_key_eq_hash (ps : List APos) :
    ∀ kv ∈ buildPosDict ps, kv.1 = create_position_hash kv.2 := by
  suffices h : ∀ (qs : List APos) (d : List (String × APos)),
      (∀ kv ∈ d, kv.1 = create_position_hash kv.2) →
      ∀ kv ∈ qs.foldl (fun d p => dinsert (create_position_hash p) p d) d,
        kv.1 = create_position_hash kv.2 by
    exact h ps [] (by simp)
  intro qs
  induction qs with
  | nil =>
    intro d h
    simpa using h
  | cons p qs ih =>
    intro d h
    apply ih
    intro kv hkv
    rcases mem_dinsert d kv _ _ hkv with h1 | h1
    · rw [h1]
    · exact h kv h1

theorem hasKey_dinsert (k : String) (v : APos) :
    ∀ (d : List (String × APos)) (k' : String),
      (hasKey (dinsert k v d) k' = true ↔ (k' = k ∨ hasKey d k' = true)) := by
  intro d
  induction d with
  | nil =>
    intro k'
    simp only [dinsert, hasKey, List.any_cons, List.any_nil, Bool.or_false, beq_iff_eq]
    constructor
    · intro h
      exact Or.inl h.symm
    · rintro (h | h)
      · exact h.symm
      · exact absurd h (by simp)
  | cons hd tl ih =>
    obtain ⟨a, b⟩ := hd
    intro k'
    by_cases hka : k = a
    · subst hka
      have hD : dinsert k v ((k, b) :: tl) = (k, v) :: tl := by simp [dinsert]
      rw [hD]
      simp only [hasKey, List.any_cons, Bool.or_eq_true, beq_iff_eq]
      constructor
      · intro h
        exact Or.inr h
      · rintro (h | h)
        · exact Or.inl h.symm
        · exact h
    · have hD : dinsert k v ((a, b) :: tl) = (a, b) :: dinsert k v tl := by
        simp [dinsert, hka]
      rw [hD]
      have ih' := ih k'
      simp only [hasKey, List.any_cons, Bool.or_eq_true] at ih' ⊢
      rw [ih']
      tauto

theorem hasKey_buildDict (ps : List APos) (k : String) :
    hasKey (buildPosDict ps) k = true ↔ k ∈ ps.map create_position_hash := by
  suffices h : ∀ (qs : List APos) (d : List (String × APos)),
      (hasKey (qs.foldl (fun d p => dinsert (create_position_hash p) p d) d) k = true ↔
        (k ∈ qs.map create_position_hash ∨ hasKey d k = true)) by
    rw [buildPosDict, h ps []]
    simp [hasKey]
  intro qs
  induction qs with
  | nil =>
    intro d
    simp
  | cons p qs ih =>
    intro d
    rw [List.foldl_cons, ih, hasKey_dinsert]
    simp only [List.map_cons, List.mem_cons]
    tauto

theorem dlookup_of_mem : ∀ (d : List (String × APos)) (kv : String × APos),
    kv ∈ d → (d.map Prod.fst).Nodup → dlookup d kv.1 = some kv.2 := by
  intro d
  induction d with
  | nil =>
    intro kv h
    simp at h
  | cons hd tl ih =>
    obtain ⟨a, b⟩ := hd
    intro kv h hnd
    simp only [List.map_cons, List.nodup_cons] at hnd
    rcases List.mem_cons.mp h with h1 | h1
    · subst h1
      simp [dlookup, List.find?]
    · have hne : ((a, b).1 == kv.1) = false := by
        simp only [beq_eq_false_iff_ne, ne_eq]
        intro he
        exact hnd.1 (he ▸ List.mem_map.mpr ⟨kv, h1, rfl⟩)
      simp only [dlookup, List.find?, hne]
      exact ih kv h1 hnd.2

theorem mem_of_dlookup : ∀ (d : List (String × APos)) (k : String) (v : APos),
    dlookup d k = some v → (k, v) ∈ d := by
  intro d
  induction d with
  | nil =>
    intro k v h
    simp [dlookup] at h
  | cons hd tl ih =>
    obtain ⟨a, b⟩ := hd
    intro k v h
    by_cases hak : a = k
    · subst hak
      have hbeq : ((a, b).1 == a) = true := by simp
      simp [dlookup, List.find?, hbeq] at h
      subst h
      exact List.mem_cons_self _ _
    · have hbeq : ((a, b).1 == k) = false := by simp [hak]
      simp only [dlookup, List.find?, hbeq] at h
      exact List.mem_cons_of_mem _ (ih k v h)

/-- Keys of the positions kept because their key misses the other dict:
exactly the keys present in `d` and absent from `e`. -/
theorem mem_map_hash_filter_iff (d e : List (String × APos))
    (hinv : ∀ kv ∈ d, kv.1 = create_position_hash kv.2) (k : String) :
    k ∈ ((d.filter (fun kv => !hasKey e kv.1)).map Prod.snd).map create_position_hash ↔
      (hasKey d k = true ∧ hasKey e k = false) := by
  simp only [List.map_map, List.mem_map, List.mem_filter, Function.comp]
  constructor
  · rintro ⟨kv, ⟨hmem, hpred⟩, hh⟩
    have h1 : kv.1 = k := by rw [hinv kv hmem]; exact hh
    refine ⟨h1 ▸ hasKey_of_mem hmem, ?_⟩
    rw [← h1]
    simpa using hpred
  · rintro ⟨h1, h2⟩
    obtain ⟨kv, hmem, hk1⟩ := (hasKey_iff_exists d k).mp h1
    refine ⟨kv, ⟨hmem, ?_⟩, by rw [← hinv kv hmem, hk1]⟩
    rw [hk1]
    simp [h2]

/-- C8: positions are keyed by a deterministic function of (symbol,
instrument type) alone; entries are the keys in the current snapshot but not
the previous one, exits the keys in the previous but not the current;
changed positions are keys present in both whose stored quantities differ by
more than 0.01; and diffing a snapshot against an identical copy of itself
yields empty entries, exits and changes. -/
theorem c8_detect_changes_diff (current previous : List APos) :
    (∀ p q : APos, p.symbol = q.symbol → p.instrument_type = q.instrument_type →
      create_position_hash p = create_position_hash q) ∧
    (∀ k : String,
      k ∈ (detect_changes current previous).new_positions.map create_position_hash ↔
        (k ∈ current.map create_position_hash ∧ k ∉ previous.map create_position_hash)) ∧
    (∀ k : String,
      k ∈ (detect_changes current previous).closed_positions.map create_position_hash ↔
        (k ∈ previous.map create_position_hash ∧ k ∉ current.map create_position_hash)) ∧
    (∀ c ∈ (detect_changes current previous).changed_positions,
      |c.current_qty - c.last_qty| > 1/100 ∧ c.change = c.current_qty - c.last_qty ∧
      ∃ k pc pp, dlookup (buildPosDict current) k = some pc ∧
        dlookup (buildPosDict previous) k = some pp ∧
        c.current_qty = pc.quantity ∧ c.last_qty = pp.quantity) ∧
    (∀ (k : String) (pc pp : APos), dlookup (buildPosDict current) k = some pc →
      dlookup (buildPosDict previous) k = some pp →
      |pc.quantity - pp.quantity| > 1/100 →
      ∃ c ∈ (detect_changes current previous).changed_positions,
        c.current_qty = pc.quantity ∧ c.last_qty = pp.quantity) ∧
    detect_changes current current =
      { new_positions := [], closed_positions := [], changed_positions := [] } := by
  refine ⟨?_, ?_, ?_, ?_, ?_, ?_⟩
  · intro p q h1 h2
    simp [create_position_hash, h1, h2]
  · intro k
    have h := mem_map_hash_filter_iff (buildPosDict current) (buildPosDict previous)
      (buildDict_key_eq_hash current) k
    rw [show (detect_changes current previous).new_positions =
        ((buildPosDict current).filter
          (fun kv => !hasKey (buildPosDict previous) kv.1)).map Prod.snd from rfl, h,
      hasKey_buildDict]
    constructor
    · rintro ⟨h1, h2⟩
      refine ⟨h1, fun hmem => ?_⟩
      rw [(hasKey_buildDict previous k).mpr hmem] at h2
      simp at h2
    · rintro ⟨h1, h2⟩
      refine ⟨h1, ?_⟩
      rcases hb : hasKey (buildPosDict previous) k with _ | _
      · rfl
      · exact absurd ((hasKey_buildDict previous k).mp hb) h2
  · intro k
    have h := mem_map_hash_filter_iff (buildPosDict previous) (buildPosDict current)
      (buildDict_key_eq_hash previous) k
    rw [show (detect_changes current previous).closed_positions =
        ((buildPosDict previous).filter
          (fun kv => !hasKey (buildPosDict current) kv.1)).map Prod.snd from rfl, h,
      hasKey_buildDict]
    constructor
    · rintro ⟨h1, h2⟩
      refine ⟨h1, fun hmem => ?_⟩
      rw [(hasKey_buildDict current k).mpr hmem] at h2
      simp at h2
    · rintro ⟨h1, h2⟩
      refine ⟨h1, ?_⟩
      rcases hb : hasKey (buildPosDict current) k with _ | _
      · rfl
      · exact absurd ((hasKey_buildDict current k).mp hb) h2
  · intro c hc
    rw [show (detect_changes current previous).changed_positions =
        (buildPosDict current).filterMap (fun kv =>
          match dlookup (buildPosDict previous) kv.1 with
          | none => none
          | some prev =>
            if |kv.2.quantity - prev.quantity| > 1/100 then
              some { symbol := kv.2.symbol, last_qty := prev.quantity
                     current_qty := kv.2.quantity, change := kv.2.quantity - prev.quantity }
            else none) from rfl] at hc
    obtain ⟨kv, hmem, hf⟩ := List.mem_filterMap.mp hc
    split at hf
    · exact absurd hf (by simp)
    · rename_i pp hl
      split at hf
      · rename_i hdiff
        rw [Option.some_inj] at hf
        subst hf
        exact ⟨by simpa using hdiff, rfl, kv.1, kv.2, pp,
          dlookup_of_mem _ kv hmem (buildDict_keys_nodup current), hl, rfl, rfl⟩
      · exact absurd hf (by simp)
  · intro k pc pp hc hp hdiff
    refine ⟨{ symbol := pc.symbol, last_qty := pp.quantity
              current_qty := pc.quantity, change := pc.quantity - pp.quantity }, ?_, rfl, rfl⟩
    rw [show (detect_changes current previous).changed_positions =
        (buildPosDict current).filterMap (fun kv =>
          match dlookup (buildPosDict previous) kv.1 with
          | none => none
          | some prev =>
            if |kv.2.quantity - prev.quantity| > 1/100 then
              some { symbol := kv.2.symbol, last_qty := prev.quantity
                     current_qty := kv.2.quantity, change := kv.2.quantity - prev.quantity }
            else none) from rfl]
    refine List.mem_filterMap.mpr ⟨(k, pc), mem_of_dlookup _ k pc hc, ?_⟩
    show (match dlookup (buildPosDict previous) k with
      | none => none
      | some prev =>
        if |pc.quantity - prev.quantity| > 1/100 then
          some ({ symbol := pc.symbol, last_qty := prev.quantity
                  current_qty := pc.quantity, change := pc.quantity - prev.quantity } : ChangeRec)
        else none) =
      some ({ symbol := pc.symbol, last_qty := pp.quantity
              current_qty := pc.quantity, change := pc.quantity - pp.quantity } : ChangeRec)
    rw [hp]
    show (if |pc.quantity - pp.quantity| > 1/100 then
        some ({ symbol := pc.symbol, last_qty := pp.quantity
                current_qty := pc.quantity, change := pc.quantity - pp.quantity } : ChangeRec)
      else none) =
      some ({ symbol := pc.symbol, last_qty := pp.quantity
              current_qty := pc.quantity, change := pc.quantity - pp.quantity } : ChangeRec)
    rw [if_pos hdiff]
  · have hnew : ((buildPosDict current).filter
        (fun kv => !hasKey (buildPosDict current) kv.1)) = [] := by
      rw [List.filter_eq_nil_iff]
      intro kv hmem
      simp [hasKey_of_mem hmem]
    have hchg : ((buildPosDict current).filterMap (fun kv =>
        (match dlookup (buildPosDict current) kv.1 with
          | none => none
          | some prev =>
            if |kv.2.quantity - prev.quantity| > 1/100 then
              some { symbol := kv.2.symbol, last_qty := prev.quantity
                     current_qty := kv.2.quantity, change := kv.2.quantity - prev.quantity }
            else none : Option ChangeRec))) = [] := by
      rw [List.filterMap_eq_nil_iff]
      intro kv hmem
      rw [dlookup_of_mem _ kv hmem (buildDict_keys_nodup current)]
      have hno : ¬ |kv.2.quantity - kv.2.quantity| > 1/100 := by
        rw [sub_self, abs_zero]
        norm_num
      show (if |kv.2.quantity - kv.2.quantity| > 1/100 then
          some ({ symbol := kv.2.symbol, last_qty := kv.2.quantity
                  current_qty := kv.2.quantity, change := kv.2.quantity - kv.2.quantity } : ChangeRec)
        else none) = none
      rw [if_neg hno]
    simp only [detect_changes, hnew, hchg, List.map_nil]

/-- C8 witness: keying depends only on (symbol, instrument type): two
positions differing only in quantity share a key; and the self-diff of a
one-position snapshot is empty. -/
theorem c8_detect_changes_diff_witness :
    create_position_hash c8_posA = create_position_hash c8_posB ∧
    detect_changes [c8_posA] [c8_posA] =
      { new_positions := [], closed_positions := [], changed_positions := [] } :=
  ⟨(c8_detect_changes_diff [c8_posA] [c8_posB]).1 c8_posA c8_posB rfl rfl,
   (c8_detect_changes_diff [c8_posA] [c8_posA]).2.2.2.2.2⟩
